/-
Verification of the trajectory reader module (src/io/trajectory_reader.cpp).

Shallow embedding of:
  * the record tokenizer used by every CSV reader in the file
    (the `while (std::getline(ss, intermediate, delim))` loops);
  * the header schema-resolution loop used by the CSV constructors;
  * `CSVTrajectoryReader::read_next_trajectory` / `has_next_feature`
    (the whole-row trajectory adapter);
  * `ITrajectoryReader::read_next_N_trajectories` (the generic batch read);
  * `CSVTemporalPointReader` (the point-stream assembler):
    `read_next_trajectory`, `read_next_temporal_trajectory`,
    `has_next_feature`, `reset_cursor`, `has_time_stamp`.

Modelling conventions:
  * an `std::ifstream` over the data file is modelled as the list of data lines
    that remain to be read (the header line is consumed at construction and is
    therefore not part of the state); `ifs.peek() != EOF` becomes
    "the list of remaining lines is nonempty";
  * a C++ exception thrown by `std::stoi` / `std::stof` on an unparseable
    numeric field is modelled by the `ReadResult.malformed` outcome, paired
    with the stream state at the throw point;
  * C++ `double` values are modelled as rationals; `std::stof` is modelled on
    decimal literals (optional sign, digits, optional decimal fraction) and
    `std::stoi` on an optional sign plus digits, both ignoring trailing
    characters after the numeric prefix exactly as the C++ functions do;
  * well-known-text geometry parsing (`boost::geometry::read_wkt`) is an
    external collaborator; it is modelled as an arbitrary total function
    parameter `wkt : String -> List Pt`;
  * the `-1` sentinel used for an unresolved column index in the C++ class
    (checked by `time_idx != -1` in `has_time_stamp`) is modelled by
    `Option Nat`, with `none` standing for `-1`.
-/
import Mathlib

/-- A 2D point; C++ `double` coordinates are modelled as rationals. -/
abbrev Pt : Type := ℚ × ℚ

/-- Outcome of a read call: a value, or a thrown `std::invalid_argument`
from `std::stoi` / `std::stof` on a malformed numeric field. -/
inductive ReadResult (α : Type) where
  | ok (val : α) : ReadResult α
  | malformed : ReadResult α
deriving DecidableEq

/-- Map a function over the `ok` outcome. -/
def mapRes {α β : Type} (f : α → β) : ReadResult α → ReadResult β
  | .ok a => .ok (f a)
  | .malformed => .malformed

/-- Value of a digit string, most significant digit first. -/
def digitsToNat (ds : List Char) : Nat :=
  ds.foldl (fun n c => 10 * n + (c.toNat - 48)) 0

/-- Model of `std::stoi`: skip leading whitespace, optional sign, then a
nonempty maximal run of decimal digits; trailing characters are ignored;
`none` models the thrown `std::invalid_argument`. -/
def stoiOpt (s : String) : Option Int :=
  let cs := s.data.dropWhile Char.isWhitespace
  let p : Int × List Char :=
    match cs with
    | '+' :: r => (1, r)
    | '-' :: r => (-1, r)
    | _ => (1, cs)
  let ds := p.2.takeWhile Char.isDigit
  if ds.isEmpty then none else some (p.1 * (digitsToNat ds : Int))

/-- Model of `std::stof` on decimal literals: skip leading whitespace,
optional sign, digits, optionally a decimal point and fraction digits;
trailing characters are ignored; `none` models `std::invalid_argument`.
A literal with `k` fraction digits denotes `(intpart·10^k + fracpart) / 10^k`,
built with `mkRat` and negation rather than rational arithmetic. -/
def stofOpt (s : String) : Option ℚ :=
  let cs := s.data.dropWhile Char.isWhitespace
  let p : Bool × List Char :=
    match cs with
    | '+' :: r => (false, r)
    | '-' :: r => (true, r)
    | _ => (false, cs)
  let ds := p.2.takeWhile Char.isDigit
  let r1 := p.2.dropWhile Char.isDigit
  let val : Option ℚ :=
    match r1 with
    | '.' :: r2 =>
      let fs := r2.takeWhile Char.isDigit
      if ds.isEmpty && fs.isEmpty then none
      else some (mkRat (digitsToNat ds * 10 ^ fs.length + digitsToNat fs : Int) (10 ^ fs.length))
    | _ => if ds.isEmpty then none else some ((digitsToNat ds : Int) : ℚ)
  match val with
  | none => none
  | some v => some (if p.1 then -v else v)

/-- One `std::getline(ss, intermediate, delim)` loop step: `cur` holds the
characters of the field read so far (reversed).  When the delimiter is the
last remaining character, the next `getline` call extracts no characters and
fails, so no further (empty) field is produced -- exactly the C++ loop. -/
def tokenizeGo (d : Char) : List Char → List Char → List String
  | cur, [] => [String.mk cur.reverse]
  | cur, c :: cs =>
    if c = d then
      match cs with
      | [] => [String.mk cur.reverse]
      | _ :: _ => String.mk cur.reverse :: tokenizeGo d [] cs
    else
      tokenizeGo d (c :: cur) cs

/-- The record tokenizer of the C++ file: the field strings produced by
`while (std::getline(ss, intermediate, delim))` on one line.  On an empty
line the first `getline` extracts nothing and fails, producing no fields. -/
def tokenize (d : Char) (s : String) : List String :=
  match s.data with
  | [] => []
  | c :: cs => tokenizeGo d [] (c :: cs)

/-- Specification-side splitter: the ordered fields strictly between
delimiter occurrences, with every empty field (leading, interior and
trailing) preserved.  Returns the first field and the remaining fields. -/
def splitFieldsAux (d : Char) : List Char → List Char × List (List Char)
  | [] => ([], [])
  | c :: cs =>
    let p := splitFieldsAux d cs
    if c = d then ([], p.1 :: p.2) else (c :: p.1, p.2)

/-- Specification-side splitter on strings (always at least one field). -/
def splitFields (d : Char) (s : String) : List String :=
  String.mk (splitFieldsAux d s.data).1 ::
    (splitFieldsAux d s.data).2.map String.mk

/-- The header resolution loop of the CSV reader constructors, for one role
name: walk the header tokens keeping a running index, and overwrite the
stored index each time a token equals the expected name (`idx = i;` with no
guard in the C++).  `acc` models the current value of the index member,
`none` standing for the `-1` initialiser. -/
def resolveRoleAux (name : String) : List String → Nat → Option Nat → Option Nat
  | [], _, acc => acc
  | t :: ts, i, acc => resolveRoleAux name ts (i + 1) (if t = name then some i else acc)

/-- Index assigned to a role by the constructor's header loop. -/
def resolveRole (tokens : List String) (name : String) : Option Nat :=
  resolveRoleAux name tokens 0 none

/-- Specification-side definition: the index of the last token equal to
`name`, if any. -/
def lastMatchIdx (name : String) : List String → Option Nat
  | [] => none
  | t :: ts =>
    match lastMatchIdx name ts with
    | some j => some (j + 1)
    | none => if t = name then some 0 else none

/-- The `Trajectory{id, geom}` value type of the C++ code. -/
structure Trajectory where
  id : Int
  geom : List Pt
deriving DecidableEq

/-- The `TemporalTrajectory{id, geom, timestamps}` value type of the C++ code. -/
structure TemporalTrajectory where
  id : Int
  geom : List Pt
  timestamps : List ℚ
deriving DecidableEq

/-- Resolved column indices of `CSVTrajectoryReader` (both required, so
nonnegative after construction). -/
structure RowSchema where
  id_idx : Nat
  geom_idx : Nat
deriving DecidableEq

namespace CSVTrajectoryReader

/-- Model of `has_next_feature`: `ifs.peek() != EOF`. -/
def has_next_feature (lines : List String) : Bool := !lines.isEmpty

/-- The field loop of `CSVTrajectoryReader::read_next_trajectory`: walk the
tokens with a running index; at the id index run `std::stoi` (whose failure
aborts the call), at the geometry index run the external WKT parser. -/
def row_loop (cfg : RowSchema) (wkt : String → List Pt) :
    List String → Nat → Int → List Pt → ReadResult (Int × List Pt)
  | [], _, trid, geom => .ok (trid, geom)
  | t :: ts, i, trid, geom =>
    if i = cfg.id_idx then
      match stoiOpt t with
      | none => .malformed
      | some v => row_loop cfg wkt ts (i + 1) v (if i = cfg.geom_idx then wkt t else geom)
    else
      row_loop cfg wkt ts (i + 1) trid (if i = cfg.geom_idx then wkt t else geom)

/-- Model of `CSVTrajectoryReader::read_next_trajectory`: `getline` one line (an
already-exhausted stream leaves the line empty), tokenize it, and fold the
field loop from `trid = 0`, empty geometry; returns the trajectory and the
remaining lines. -/
def read_next_trajectory (d : Char) (cfg : RowSchema) (wkt : String → List Pt)
    (lines : List String) : ReadResult Trajectory × List String :=
  match lines with
  | [] => (mapRes (fun p => ⟨p.1, p.2⟩) (row_loop cfg wkt (tokenize d "") 0 0 []), [])
  | l :: ls => (mapRes (fun p => ⟨p.1, p.2⟩) (row_loop cfg wkt (tokenize d l) 0 0 []), ls)

end CSVTrajectoryReader

namespace ITrajectoryReader

/-- Model of `ITrajectoryReader::read_next_N_trajectories`: repeatedly call
`read_next_trajectory` while fewer than `n` collected and
`has_next_feature()` holds; a thrown exception propagates, discarding the
collected vector. -/
def read_next_N_trajectories {σ : Type} (hasNext : σ → Bool)
    (readNext : σ → ReadResult Trajectory × σ) :
    Nat → σ → ReadResult (List Trajectory) × σ
  | 0, s => (.ok [], s)
  | n + 1, s =>
    if hasNext s then
      match readNext s with
      | (.ok t, s1) =>
        match read_next_N_trajectories hasNext readNext n s1 with
        | (.ok ts, s2) => (.ok (t :: ts), s2)
        | (.malformed, s2) => (.malformed, s2)
      | (.malformed, s1) => (.malformed, s1)
    else (.ok [], s)

end ITrajectoryReader

/-- Resolved column indices of `CSVTemporalPointReader` (id, x, y required;
time optional, `none` modelling the `-1` sentinel). -/
structure PointSchema where
  id_idx : Nat
  x_idx : Nat
  y_idx : Nat
  time_idx : Option Nat
deriving DecidableEq

/-- Mutable state of a `CSVTemporalPointReader`: the full list of data lines
of the backing file (needed to model `reset_cursor`'s seek to the begin),
the lines still unread, and the `prev_line` member (the pending record
buffer; the empty string means empty, as tested by `prev_line.empty()`). -/
structure PointState where
  file : List String
  lines : List String
  prev_line : String
deriving DecidableEq

namespace CSVTemporalPointReader

/-- Model of `has_next_feature`: `ifs.peek() != EOF`; the pending `prev_line` buffer
is not consulted. -/
def has_next_feature (s : PointState) : Bool := !s.lines.isEmpty

/-- Model of `has_time_stamp`: `time_idx != -1`. -/
def has_time_stamp (cfg : PointSchema) : Bool := cfg.time_idx.isSome

/-- The field loop of `CSVTemporalPointReader::read_next_trajectory`:
id, x and y extracted by index (in that order at each token), any
`std::stoi`/`std::stof` failure aborting the call. -/
def rec_loop (cfg : PointSchema) :
    List String → Nat → Int → ℚ → ℚ → ReadResult (Int × ℚ × ℚ)
  | [], _, id, x, y => .ok (id, x, y)
  | t :: ts, i, id, x, y =>
    match (if i = cfg.id_idx then stoiOpt t else some id) with
    | none => .malformed
    | some id1 =>
      match (if i = cfg.x_idx then stofOpt t else some x) with
      | none => .malformed
      | some x1 =>
        match (if i = cfg.y_idx then stofOpt t else some y) with
        | none => .malformed
        | some y1 => rec_loop cfg ts (i + 1) id1 x1 y1

/-- Tokenize one record line and run the non-temporal field loop from the
defaults `id = 0`, `x = 0`, `y = 0`. -/
def parse_record (d : Char) (cfg : PointSchema) (l : String) : ReadResult (Int × ℚ × ℚ) :=
  rec_loop cfg (tokenize d l) 0 0 0 0

/-- The field loop of `read_next_temporal_trajectory`: as `rec_loop`, plus
the timestamp at the resolved time index. -/
def rec_loop_t (cfg : PointSchema) :
    List String → Nat → Int → ℚ → ℚ → ℚ → ReadResult (Int × ℚ × ℚ × ℚ)
  | [], _, id, x, y, tm => .ok (id, x, y, tm)
  | t :: ts, i, id, x, y, tm =>
    match (if i = cfg.id_idx then stoiOpt t else some id) with
    | none => .malformed
    | some id1 =>
      match (if i = cfg.x_idx then stofOpt t else some x) with
      | none => .malformed
      | some x1 =>
        match (if i = cfg.y_idx then stofOpt t else some y) with
        | none => .malformed
        | some y1 =>
          match (if cfg.time_idx = some i then stofOpt t else some tm) with
          | none => .malformed
          | some t1 => rec_loop_t cfg ts (i + 1) id1 x1 y1 t1

/-- Tokenize one record line and run the temporal field loop from the
defaults `id = 0`, `x = 0`, `y = 0`, `timestamp = 0`. -/
def parse_record_t (d : Char) (cfg : PointSchema) (l : String) :
    ReadResult (Int × ℚ × ℚ × ℚ) :=
  rec_loop_t cfg (tokenize d l) 0 0 0 0 0

/-- The assembly loop of `read_next_trajectory`, reading from the stream
(the pending-buffer iteration is handled by the caller): at each line,
parse; if the id equals `prev_id` or this is the first observation append
the point and continue with `prev_id := id`; otherwise stop, storing the
line in `prev_line` -- note `prev_id` has already been overwritten with the
new id when the trajectory is returned.  Returns the result together with
the remaining lines and the final `prev_line`. -/
def point_loop (d : Char) (cfg : PointSchema) :
    Bool → Int → List Pt → List String → ReadResult (Int × List Pt) × List String × String
  | _, pid, geom, [] => (.ok (pid, geom), [], "")
  | first, pid, geom, l :: ls =>
    match parse_record d cfg l with
    | .malformed => (.malformed, ls, "")
    | .ok (id, x, y) =>
      if pid = id ∨ first = true then
        point_loop d cfg false id (geom ++ [(x, y)]) ls
      else
        (.ok (id, geom), ls, l)

/-- Model of `CSVTemporalPointReader::read_next_trajectory`.  The `while` guard tests
`has_next_feature()` before consuming the pending buffer, so with an
exhausted stream the loop body never runs and `Trajectory{-1, {}}` is
returned with `prev_line` untouched.  Otherwise a nonempty `prev_line` is
consumed (and cleared) as the first record, then the loop continues on the
stream. -/
def read_next_trajectory (d : Char) (cfg : PointSchema) (s : PointState) :
    ReadResult Trajectory × PointState :=
  if s.lines.isEmpty then (.ok ⟨-1, []⟩, s)
  else if s.prev_line = "" then
    match point_loop d cfg true (-1) [] s.lines with
    | (.ok p, rest, pd) => (.ok ⟨p.1, p.2⟩, ⟨s.file, rest, pd⟩)
    | (.malformed, rest, pd) => (.malformed, ⟨s.file, rest, pd⟩)
  else
    match parse_record d cfg s.prev_line with
    | .malformed => (.malformed, ⟨s.file, s.lines, ""⟩)
    | .ok (id, x, y) =>
      match point_loop d cfg false id [(x, y)] s.lines with
      | (.ok p, rest, pd) => (.ok ⟨p.1, p.2⟩, ⟨s.file, rest, pd⟩)
      | (.malformed, rest, pd) => (.malformed, ⟨s.file, rest, pd⟩)

/-- The assembly loop of `read_next_temporal_trajectory`: as `point_loop`,
additionally pushing the parsed timestamp when `has_time_stamp()` holds. -/
def point_loop_t (d : Char) (cfg : PointSchema) :
    Bool → Int → List Pt → List ℚ → List String →
      ReadResult (Int × List Pt × List ℚ) × List String × String
  | _, pid, geom, tss, [] => (.ok (pid, geom, tss), [], "")
  | first, pid, geom, tss, l :: ls =>
    match parse_record_t d cfg l with
    | .malformed => (.malformed, ls, "")
    | .ok (id, x, y, tm) =>
      if pid = id ∨ first = true then
        point_loop_t d cfg false id (geom ++ [(x, y)])
          (if has_time_stamp cfg then tss ++ [tm] else tss) ls
      else
        (.ok (id, geom, tss), ls, l)

/-- Model of `CSVTemporalPointReader::read_next_temporal_trajectory`, with the same
control flow as `read_next_trajectory`. -/
def read_next_temporal_trajectory (d : Char) (cfg : PointSchema) (s : PointState) :
    ReadResult TemporalTrajectory × PointState :=
  if s.lines.isEmpty then (.ok ⟨-1, [], []⟩, s)
  else if s.prev_line = "" then
    match point_loop_t d cfg true (-1) [] [] s.lines with
    | (.ok p, rest, pd) => (.ok ⟨p.1, p.2.1, p.2.2⟩, ⟨s.file, rest, pd⟩)
    | (.malformed, rest, pd) => (.malformed, ⟨s.file, rest, pd⟩)
  else
    match parse_record_t d cfg s.prev_line with
    | .malformed => (.malformed, ⟨s.file, s.lines, ""⟩)
    | .ok (id, x, y, tm) =>
      match point_loop_t d cfg false id [(x, y)]
          (if has_time_stamp cfg then [tm] else []) s.lines with
      | (.ok p, rest, pd) => (.ok ⟨p.1, p.2.1, p.2.2⟩, ⟨s.file, rest, pd⟩)
      | (.malformed, rest, pd) => (.malformed, ⟨s.file, rest, pd⟩)

/-- Model of `CSVTemporalPointReader::reset_cursor`: seek to the file begin and skip
the header line, so the unread lines become the whole data section again;
the `prev_line` member is not touched. -/
def reset_cursor (s : PointState) : PointState := ⟨s.file, s.file, s.prev_line⟩

end CSVTemporalPointReader

/-- The three data rows of the worked example in the specification. -/
def exLines3 : List String := ["1,0,0", "1,1,1", "2,5,5"]

/-- Data rows whose second contiguous identifier run has two records. -/
def exLines4 : List String := ["1,0,0", "2,5,5", "2,6,6"]

/-- Schema of the example files: `id` at column 0, `x` at 1, `y` at 2, no
time column resolved. -/
def exCfg : PointSchema := ⟨0, 1, 2, none⟩

/-- The id field of a line either lies beyond its token list or parses. -/
def row_id_ok (d : Char) (cfg : RowSchema) (l : String) : Bool :=
  match (tokenize d l)[cfg.id_idx]? with
  | some t => (stoiOpt t).isSome
  | none => true

section Lemmas

/-- The constructor's overwrite-on-match loop computes the index of the
last matching token, shifted by the running index, falling back to the
accumulator. -/
lemma resolveRoleAux_eq (name : String) (ts : List String) :
    ∀ (i : Nat) (acc : Option Nat),
      resolveRoleAux name ts i acc =
        match lastMatchIdx name ts with
        | some j => some (i + j)
        | none => acc := by
  induction ts with
  | nil => intro i acc; rfl
  | cons t ts ih =>
    intro i acc
    simp only [resolveRoleAux, lastMatchIdx]
    rw [ih]
    cases h : lastMatchIdx name ts with
    | some j =>
      simp only []
      congr 1
      omega
    | none =>
      by_cases ht : t = name
      · simp [ht]
      · simp [ht]

/-- Tokenizing the empty line yields no fields. -/
lemma tokenize_empty (d : Char) : tokenize d "" = [] := rfl

/-- The loop `row_loop` leaves both accumulators untouched when every remaining
index lies strictly below both resolved column indices. -/
lemma row_loop_skip_all (cfg : RowSchema) (wkt : String → List Pt) :
    ∀ (ts : List String) (i : Nat) (trid : Int) (g : List Pt),
      i + ts.length ≤ cfg.id_idx → i + ts.length ≤ cfg.geom_idx →
      CSVTrajectoryReader.row_loop cfg wkt ts i trid g = .ok (trid, g) := by
  intro ts
  induction ts with
  | nil => intro i trid g _ _; rfl
  | cons t ts ih =>
    intro i trid g hid hg
    simp only [List.length_cons] at hid hg
    have h1 : ¬ i = cfg.id_idx := by omega
    have h2 : ¬ i = cfg.geom_idx := by omega
    simp only [CSVTrajectoryReader.row_loop, if_neg h1, if_neg h2]
    exact ih (i + 1) trid g (by omega) (by omega)

/-- The loop `row_loop` keeps the id accumulator and cannot fail when every
remaining index lies strictly below the resolved id index. -/
lemma row_loop_skip_id (cfg : RowSchema) (wkt : String → List Pt) :
    ∀ (ts : List String) (i : Nat) (trid : Int) (g : List Pt),
      i + ts.length ≤ cfg.id_idx →
      ∃ g2, CSVTrajectoryReader.row_loop cfg wkt ts i trid g = .ok (trid, g2) := by
  intro ts
  induction ts with
  | nil => intro i trid g _; exact ⟨g, rfl⟩
  | cons t ts ih =>
    intro i trid g hid
    simp only [List.length_cons] at hid
    have h1 : ¬ i = cfg.id_idx := by omega
    simp only [CSVTrajectoryReader.row_loop, if_neg h1]
    exact ih (i + 1) trid (if i = cfg.geom_idx then wkt t else g) (by omega)

end Lemmas

/-- Claim C1 (code bug): on the input rows `1,0,0` / `1,1,1` / `2,5,5` the
point-stream assembler's first `read_next_trajectory` returns the points
[(0,0),(1,1)] of the first identifier run but tags them with identifier 2
(the id of the *next* run, because `prev_id` is overwritten before the
return), the stream is then reported exhausted although `prev_line` still
buffers the record `2,5,5`, and a further read returns the fabricated
trajectory `{-1, {}}` -- so the claimed outputs (trajectory 1 with
[(0,0),(1,1)], then trajectory 2 with [(5,5)]) are not produced. -/
theorem C1_assembler_failing_input :
    (CSVTemporalPointReader.read_next_trajectory ',' exCfg ⟨exLines3, exLines3, ""⟩).1 =
      .ok ⟨2, [(0, 0), (1, 1)]⟩ ∧
    (CSVTemporalPointReader.read_next_trajectory ',' exCfg ⟨exLines3, exLines3, ""⟩).2 =
      ⟨exLines3, [], "2,5,5"⟩ ∧
    CSVTemporalPointReader.has_next_feature ⟨exLines3, [], "2,5,5"⟩ = false ∧
    CSVTemporalPointReader.read_next_trajectory ',' exCfg ⟨exLines3, [], "2,5,5"⟩ =
      (.ok ⟨-1, []⟩, ⟨exLines3, [], "2,5,5"⟩) := by decide

/-- Claim C2 (code bug): `has_next_feature` tests only `ifs.peek() != EOF`
and never consults the pending record buffer; in the reachable state after
one read of the example rows, the physical source is exhausted while
`prev_line` still holds the carried-over boundary record `2,5,5`, yet
`has_next_feature` returns `false` -- the claimed final read yielding the
buffered trajectory is never enabled. -/
theorem C2_has_next_ignores_pending_buffer :
    (CSVTemporalPointReader.read_next_trajectory ',' exCfg ⟨exLines3, exLines3, ""⟩).2 =
      ⟨exLines3, [], "2,5,5"⟩ ∧
    ("2,5,5" : String) ≠ "" ∧
    CSVTemporalPointReader.has_next_feature ⟨exLines3, [], "2,5,5"⟩ = false := by decide

/-- Claim C3, counterexample: in the header `id,x,y,id` the name `id`
occurs first at index 0, but the schema resolution loop assigns index 3 --
the first matching header token does not win. -/
theorem C3_first_match_counterexample :
    resolveRole (tokenize ',' "id,x,y,id") "id" = some 3 ∧
    ¬ resolveRole (tokenize ',' "id,x,y,id") "id" = some 0 := by decide

/-- Claim C3, amended: the schema resolution loop overwrites the stored
index on every case-sensitive match (`idx = i;` with no guard), so a role
is mapped to the index of the LAST header token equal to the expected
name, `none` (the `-1` sentinel) when no token matches. -/
theorem C3_last_match_wins (tokens : List String) (name : String) :
    resolveRole tokens name = lastMatchIdx name tokens := by
  unfold resolveRole
  rw [resolveRoleAux_eq]
  cases h : lastMatchIdx name tokens with
  | none => rfl
  | some j => simp

/-- Claim C4 (code bug): `reset_cursor` only seeks back past the header and
does not clear the pending record buffer.  After reading one trajectory
from the rows `1,0,0` / `2,5,5` / `2,6,6` the buffer holds `2,5,5`; reset
leaves it there, and the first post-reset read consumes the stale buffered
record first, yielding `{1, [(5,5)]}` -- different from the first
trajectory `{2, [(0,0)]}` of a drain from construction, so reset-then-drain
does not reproduce the original sequence. -/
theorem C4_reset_keeps_pending_buffer :
    (CSVTemporalPointReader.read_next_trajectory ',' exCfg ⟨exLines4, exLines4, ""⟩).1 =
      .ok ⟨2, [(0, 0)]⟩ ∧
    CSVTemporalPointReader.reset_cursor
        (CSVTemporalPointReader.read_next_trajectory ',' exCfg ⟨exLines4, exLines4, ""⟩).2 =
      ⟨exLines4, exLines4, "2,5,5"⟩ ∧
    (CSVTemporalPointReader.read_next_trajectory ',' exCfg ⟨exLines4, exLines4, "2,5,5"⟩).1 =
      .ok ⟨1, [(5, 5)]⟩ := by decide

/-- Claim C6, counterexample: with the source exhausted (`has_next` false),
`read_next_trajectory` of the whole-row CSV reader returns the fabricated
default trajectory `{0, {}}`, and the point-stream reader returns
`{-1, {}}`; neither call fails with an error. -/
theorem C6_exhausted_counterexample :
    CSVTrajectoryReader.has_next_feature ([] : List String) = false ∧
    CSVTrajectoryReader.read_next_trajectory ',' ⟨0, 1⟩ (fun _ => []) [] =
      (.ok ⟨0, []⟩, []) ∧
    CSVTemporalPointReader.has_next_feature ⟨[], [], ""⟩ = false ∧
    CSVTemporalPointReader.read_next_trajectory ',' exCfg ⟨[], [], ""⟩ =
      (.ok ⟨-1, []⟩, ⟨[], [], ""⟩) := by decide

/-- Claim C6, amended: for both CSV readers, calling `read_next_trajectory`
when `has_next_feature()` is false does not fail: it returns a fabricated
default trajectory with an empty point sequence (identifier 0 for the
whole-row reader, whose locals default to 0 on an empty line; identifier -1
for the point-stream reader, whose loop body never runs) and leaves the
state unchanged. -/
theorem C6_exhausted_returns_default (d : Char) (cfgR : RowSchema)
    (wkt : String → List Pt) (cfgP : PointSchema) (lines : List String) (s : PointState)
    (hR : CSVTrajectoryReader.has_next_feature lines = false)
    (hP : CSVTemporalPointReader.has_next_feature s = false) :
    CSVTrajectoryReader.read_next_trajectory d cfgR wkt lines = (.ok ⟨0, []⟩, []) ∧
    CSVTemporalPointReader.read_next_trajectory d cfgP s = (.ok ⟨-1, []⟩, s) := by
  constructor
  · cases lines with
    | cons l ls => simp [CSVTrajectoryReader.has_next_feature] at hR
    | nil =>
      simp [CSVTrajectoryReader.read_next_trajectory, tokenize_empty,
        CSVTrajectoryReader.row_loop, mapRes]
  · have hP' : s.lines.isEmpty = true := by
      cases hls : s.lines with
      | nil => simp [hls]
      | cons l ls => simp [CSVTemporalPointReader.has_next_feature, hls] at hP
    simp [CSVTemporalPointReader.read_next_trajectory, hP']

/-- Witness for C6 at concrete exhausted states. -/
theorem C6_exhausted_witness :
    CSVTrajectoryReader.read_next_trajectory ',' ⟨0, 1⟩ (fun _ => []) [] =
      (.ok ⟨0, []⟩, []) ∧
    CSVTemporalPointReader.read_next_trajectory ',' exCfg ⟨exLines3, [], "2,5,5"⟩ =
      (.ok ⟨-1, []⟩, ⟨exLines3, [], "2,5,5"⟩) :=
  C6_exhausted_returns_default ',' ⟨0, 1⟩ (fun _ => []) exCfg []
    ⟨exLines3, [], "2,5,5"⟩ (by decide) (by decide)

/-- Claim C9: a record whose numeric field is unparseable (the thrown
`std::stoi`/`std::stof` exception is modelled by the `malformed` outcome)
makes that single read call fail; the stream has already consumed the bad
line when the exception is raised and the pending buffer is clear, so the
resulting state is an ordinary reader state positioned past the bad record,
from which further reads and `close()` proceed normally. -/
theorem C9_malformed_field_error (d : Char) (cfg : PointSchema) (f : List String)
    (l : String) (ls : List String)
    (h1 : CSVTemporalPointReader.parse_record_t d cfg l = .malformed)
    (h2 : CSVTemporalPointReader.parse_record d cfg l = .malformed) :
    CSVTemporalPointReader.read_next_temporal_trajectory d cfg ⟨f, l :: ls, ""⟩ =
      (.malformed, ⟨f, ls, ""⟩) ∧
    CSVTemporalPointReader.read_next_trajectory d cfg ⟨f, l :: ls, ""⟩ =
      (.malformed, ⟨f, ls, ""⟩) := by
  constructor
  · simp [CSVTemporalPointReader.read_next_temporal_trajectory,
      CSVTemporalPointReader.point_loop_t, h1]
  · simp [CSVTemporalPointReader.read_next_trajectory,
      CSVTemporalPointReader.point_loop, h2]

/-- Witness for C9 on the record `abc,0,0` with an unparseable id field. -/
theorem C9_malformed_field_witness :
    CSVTemporalPointReader.read_next_temporal_trajectory ',' exCfg
        ⟨["abc,0,0", "1,1,1"], ["abc,0,0", "1,1,1"], ""⟩ =
      (.malformed, ⟨["abc,0,0", "1,1,1"], ["1,1,1"], ""⟩) ∧
    CSVTemporalPointReader.read_next_trajectory ',' exCfg
        ⟨["abc,0,0", "1,1,1"], ["abc,0,0", "1,1,1"], ""⟩ =
      (.malformed, ⟨["abc,0,0", "1,1,1"], ["1,1,1"], ""⟩) :=
  C9_malformed_field_error ',' exCfg ["abc,0,0", "1,1,1"] "abc,0,0" ["1,1,1"]
    (by decide) (by decide)

/-- Claim C10: when a data line has fewer fields than the resolved id
index, the whole-row reader never errors and returns the default
identifier 0; when the line is also shorter than the geometry index the
geometry stays the default empty sequence. -/
theorem C10_short_row_defaults (d : Char) (cfg : RowSchema) (wkt : String → List Pt)
    (l : String) (ls : List String)
    (hid : (tokenize d l).length ≤ cfg.id_idx) :
    ((tokenize d l).length ≤ cfg.geom_idx →
      CSVTrajectoryReader.read_next_trajectory d cfg wkt (l :: ls) = (.ok ⟨0, []⟩, ls)) ∧
    (∃ g, CSVTrajectoryReader.read_next_trajectory d cfg wkt (l :: ls) = (.ok ⟨0, g⟩, ls)) := by
  constructor
  · intro hg
    have h := row_loop_skip_all cfg wkt (tokenize d l) 0 0 []
      (by simpa using hid) (by simpa using hg)
    simp [CSVTrajectoryReader.read_next_trajectory, h, mapRes]
  · obtain ⟨g2, hg2⟩ := row_loop_skip_id cfg wkt (tokenize d l) 0 0 [] (by simpa using hid)
    exact ⟨g2, by simp [CSVTrajectoryReader.read_next_trajectory, hg2, mapRes]⟩

/-- Witness for C10 on the single-field line `a` with id and geometry
resolved to columns 2 and 3. -/
theorem C10_short_row_witness :
    CSVTrajectoryReader.read_next_trajectory ',' ⟨2, 3⟩ (fun _ => []) ["a"] =
      (.ok ⟨0, []⟩, []) ∧
    ∃ g, CSVTrajectoryReader.read_next_trajectory ',' ⟨2, 3⟩ (fun _ => []) ["a"] =
      (.ok ⟨0, g⟩, []) := by
  have h := C10_short_row_defaults ',' ⟨2, 3⟩ (fun _ => []) "a" [] (by decide)
  exact ⟨h.1 (by decide), h.2⟩

/-- In the temporal assembly loop, when a time channel is configured the
timestamp list and geometry grow in lockstep, so equal lengths are
preserved through to any successful return. -/
lemma point_loop_t_len (d : Char) (cfg : PointSchema)
    (hts : CSVTemporalPointReader.has_time_stamp cfg = true) :
    ∀ (ls : List String) (first : Bool) (pid : Int) (geom : List Pt) (tss : List ℚ)
      (out : Int × List Pt × List ℚ) (rest : List String) (pd : String),
      tss.length = geom.length →
      CSVTemporalPointReader.point_loop_t d cfg first pid geom tss ls = (.ok out, rest, pd) →
      out.2.2.length = out.2.1.length := by
  intro ls
  induction ls with
  | nil =>
    intro first pid geom tss out rest pd hlen h
    simp only [CSVTemporalPointReader.point_loop_t, Prod.mk.injEq,
      ReadResult.ok.injEq] at h
    obtain ⟨h1, -, -⟩ := h
    subst h1
    simpa using hlen
  | cons l ls ih =>
    intro first pid geom tss out rest pd hlen h
    simp only [CSVTemporalPointReader.point_loop_t] at h
    cases hp : CSVTemporalPointReader.parse_record_t d cfg l with
    | malformed => rw [hp] at h; simp at h
    | ok q =>
      obtain ⟨id, x, y, tm⟩ := q
      rw [hp] at h
      simp only [] at h
      by_cases hb : pid = id ∨ first = true
      · rw [if_pos hb] at h
        refine ih false id (geom ++ [(x, y)]) _ out rest pd ?_ h
        rw [hts]
        simp [hlen]
      · rw [if_neg hb] at h
        simp only [Prod.mk.injEq, ReadResult.ok.injEq] at h
        obtain ⟨h1, -, -⟩ := h
        subst h1
        simpa using hlen

/-- In the temporal assembly loop, when no time channel is configured the
timestamp list is never appended to, so it stays empty through to any
successful return. -/
lemma point_loop_t_none (d : Char) (cfg : PointSchema)
    (hts : CSVTemporalPointReader.has_time_stamp cfg = false) :
    ∀ (ls : List String) (first : Bool) (pid : Int) (geom : List Pt) (tss : List ℚ)
      (out : Int × List Pt × List ℚ) (rest : List String) (pd : String),
      tss = [] →
      CSVTemporalPointReader.point_loop_t d cfg first pid geom tss ls = (.ok out, rest, pd) →
      out.2.2 = [] := by
  intro ls
  induction ls with
  | nil =>
    intro first pid geom tss out rest pd hlen h
    simp only [CSVTemporalPointReader.point_loop_t, Prod.mk.injEq,
      ReadResult.ok.injEq] at h
    obtain ⟨h1, -, -⟩ := h
    subst h1
    simpa using hlen
  | cons l ls ih =>
    intro first pid geom tss out rest pd hlen h
    simp only [CSVTemporalPointReader.point_loop_t] at h
    cases hp : CSVTemporalPointReader.parse_record_t d cfg l with
    | malformed => rw [hp] at h; simp at h
    | ok q =>
      obtain ⟨id, x, y, tm⟩ := q
      rw [hp] at h
      simp only [] at h
      by_cases hb : pid = id ∨ first = true
      · rw [if_pos hb] at h
        refine ih false id (geom ++ [(x, y)]) _ out rest pd ?_ h
        rw [hts]
        simp [hlen]
      · rw [if_neg hb] at h
        simp only [Prod.mk.injEq, ReadResult.ok.injEq] at h
        obtain ⟨h1, -, -⟩ := h
        subst h1
        simpa using hlen

/-- Claim C5: every successful `read_next_temporal_trajectory` returns a
timestamp sequence whose length equals the point-sequence length when the
time column was resolved, and an empty (never partially filled) timestamp
sequence when it was not. -/
theorem C5_timestamp_length_invariant (d : Char) (cfg : PointSchema) (s : PointState)
    (r : TemporalTrajectory) (s1 : PointState)
    (h : CSVTemporalPointReader.read_next_temporal_trajectory d cfg s = (.ok r, s1)) :
    (CSVTemporalPointReader.has_time_stamp cfg = true →
      r.timestamps.length = r.geom.length) ∧
    (CSVTemporalPointReader.has_time_stamp cfg = false → r.timestamps = []) := by
  unfold CSVTemporalPointReader.read_next_temporal_trajectory at h
  split at h
  · simp only [Prod.mk.injEq, ReadResult.ok.injEq] at h
    obtain ⟨h1, -⟩ := h
    subst h1
    simp
  · split at h
    · split at h
      · rename_i p rest pd heq
        simp only [Prod.mk.injEq, ReadResult.ok.injEq] at h
        obtain ⟨h1, -⟩ := h
        subst h1
        constructor
        · intro hts
          exact point_loop_t_len d cfg hts _ true (-1) [] [] p rest pd (by simp) heq
        · intro hts
          exact point_loop_t_none d cfg hts _ true (-1) [] [] p rest pd rfl heq
      · simp at h
    · split at h
      · simp at h
      · rename_i id x y tm hpr
        split at h
        · rename_i p rest pd heq
          simp only [Prod.mk.injEq, ReadResult.ok.injEq] at h
          obtain ⟨h1, -⟩ := h
          subst h1
          constructor
          · intro hts
            exact point_loop_t_len d cfg hts _ false id [(x, y)] _ p rest pd
              (by simp [hts]) heq
          · intro hts
            exact point_loop_t_none d cfg hts _ false id [(x, y)] _ p rest pd
              (by simp [hts]) heq
        · simp at h

/-- Witness for C5 on a one-row file with a resolved time column. -/
theorem C5_timestamp_length_witness :
    (CSVTemporalPointReader.has_time_stamp ⟨0, 1, 2, some 3⟩ = true →
      (TemporalTrajectory.mk 1 [(0, 0)] [7]).timestamps.length =
        (TemporalTrajectory.mk 1 [(0, 0)] [7]).geom.length) ∧
    (CSVTemporalPointReader.has_time_stamp ⟨0, 1, 2, some 3⟩ = false →
      (TemporalTrajectory.mk 1 [(0, 0)] [7]).timestamps = []) :=
  C5_timestamp_length_invariant ',' ⟨0, 1, 2, some 3⟩ ⟨["1,0,0,7"], ["1,0,0,7"], ""⟩
    ⟨1, [(0, 0)], [7]⟩ ⟨["1,0,0,7"], [], ""⟩ (by decide)

/-- Positional form of `row_id_ok`. -/
lemma row_id_ok_spec (d : Char) (cfg : RowSchema) (l : String)
    (h : row_id_ok d cfg l = true) :
    ∀ (j : Nat) (hj : j < (tokenize d l).length), 0 + j = cfg.id_idx →
      (stoiOpt ((tokenize d l).get ⟨j, hj⟩)).isSome = true := by
  intro j hj hje
  have hj2 : j = cfg.id_idx := by omega
  subst hj2
  unfold row_id_ok at h
  rw [List.getElem?_eq_getElem hj] at h
  simpa using h

/-- The loop `row_loop` succeeds whenever the token found at the id index (if the
loop ever reaches it) parses as an integer. -/
lemma row_loop_ok_of (cfg : RowSchema) (wkt : String → List Pt) :
    ∀ (ts : List String) (i : Nat) (trid : Int) (g : List Pt),
      (∀ (j : Nat) (hj : j < ts.length), i + j = cfg.id_idx →
        (stoiOpt (ts.get ⟨j, hj⟩)).isSome = true) →
      ∃ p, CSVTrajectoryReader.row_loop cfg wkt ts i trid g = .ok p := by
  intro ts
  induction ts with
  | nil => intro i trid g _; exact ⟨(trid, g), rfl⟩
  | cons t ts ih =>
    intro i trid g h
    by_cases hi : i = cfg.id_idx
    · have h0 : (stoiOpt t).isSome = true := h 0 (by simp) (by simpa using hi)
      obtain ⟨v, hv⟩ := Option.isSome_iff_exists.mp h0
      simp only [CSVTrajectoryReader.row_loop, if_pos hi, hv]
      exact ih (i + 1) v _
        (fun j hj hje => h (j + 1) (by simpa using Nat.succ_lt_succ hj) (by omega))
    · simp only [CSVTrajectoryReader.row_loop, if_neg hi]
      exact ih (i + 1) trid _
        (fun j hj hje => h (j + 1) (by simpa using Nat.succ_lt_succ hj) (by omega))

/-- Claim C7: the generic batch read collects trajectories while
`has_next_feature()` holds and fewer than `n` were collected.  Instantiated
with the whole-row CSV reader -- where each read consumes exactly one line,
so the number of trajectories remaining is the number of remaining lines --
it returns, on any state whose remaining id fields parse, an ok sequence of
length `min n remaining`; early exhaustion just gives the shorter sequence,
never an error. -/
theorem C7_read_next_N_length (d : Char) (cfg : RowSchema) (wkt : String → List Pt)
    (n : Nat) (lines : List String)
    (h : ∀ l ∈ lines, row_id_ok d cfg l = true) :
    ∃ ts rest,
      ITrajectoryReader.read_next_N_trajectories CSVTrajectoryReader.has_next_feature
        (CSVTrajectoryReader.read_next_trajectory d cfg wkt) n lines = (.ok ts, rest) ∧
      ts.length = min n lines.length := by
  induction n generalizing lines with
  | zero => exact ⟨[], lines, rfl, by simp⟩
  | succ n ih =>
    cases lines with
    | nil =>
      refine ⟨[], [], ?_, by simp⟩
      simp [ITrajectoryReader.read_next_N_trajectories, CSVTrajectoryReader.has_next_feature]
    | cons l ls =>
      obtain ⟨p, hp⟩ := row_loop_ok_of cfg wkt (tokenize d l) 0 0 []
        (row_id_ok_spec d cfg l (h l (List.mem_cons_self l ls)))
      obtain ⟨ts, rest, hts, hlen⟩ := ih ls (fun x hx => h x (List.mem_cons_of_mem l hx))
      refine ⟨⟨p.1, p.2⟩ :: ts, rest, ?_, ?_⟩
      · simp [ITrajectoryReader.read_next_N_trajectories, CSVTrajectoryReader.has_next_feature,
          CSVTrajectoryReader.read_next_trajectory, hp, mapRes, hts]
      · simpa [hlen] using (Nat.succ_min_succ n ls.length).symm

/-- Witness for C7: asking for 5 trajectories from a 2-line file returns
an ok sequence of length `min 5 2`. -/
theorem C7_read_next_N_witness :
    ∃ ts rest,
      ITrajectoryReader.read_next_N_trajectories CSVTrajectoryReader.has_next_feature
        (CSVTrajectoryReader.read_next_trajectory ',' ⟨0, 1⟩ (fun _ => [])) 5
        ["7,a", "8,b"] = (.ok ts, rest) ∧
      ts.length = min 5 (["7,a", "8,b"] : List String).length :=
  C7_read_next_N_length ',' ⟨0, 1⟩ (fun _ => []) 5 ["7,a", "8,b"] (by decide)

/-- Unfolding: a leading delimiter followed by more input emits the current
field and restarts with an empty field. -/
lemma tokenizeGo_cons_delim_cons (d : Char) (cur : List Char) (c2 : Char) (cs2 : List Char) :
    tokenizeGo d cur (d :: c2 :: cs2) = String.mk cur.reverse :: tokenizeGo d [] (c2 :: cs2) := by
  simp [tokenizeGo]

/-- Unfolding: a trailing delimiter ends the loop after the current field
(the next `getline` fails), producing no trailing empty field. -/
lemma tokenizeGo_cons_delim_nil (d : Char) (cur : List Char) :
    tokenizeGo d cur [d] = [String.mk cur.reverse] := by
  simp [tokenizeGo]

/-- Unfolding: a non-delimiter character is accumulated into the current
field. -/
lemma tokenizeGo_cons_ne (d c : Char) (h : ¬ c = d) (cur cs : List Char) :
    tokenizeGo d cur (c :: cs) = tokenizeGo d (c :: cur) cs := by
  cases cs <;> simp [tokenizeGo, h]

/-- Unfolding of the specification splitter at a delimiter. -/
lemma splitFieldsAux_delim (d : Char) (cs : List Char) :
    splitFieldsAux d (d :: cs) =
      ([], (splitFieldsAux d cs).1 :: (splitFieldsAux d cs).2) := by
  simp [splitFieldsAux]

/-- Unfolding of the specification splitter at a non-delimiter. -/
lemma splitFieldsAux_ne (d c : Char) (h : ¬ c = d) (cs : List Char) :
    splitFieldsAux d (c :: cs) =
      (c :: (splitFieldsAux d cs).1, (splitFieldsAux d cs).2) := by
  simp [splitFieldsAux, h]

/-- The `getline` token loop equals the all-fields split of the remaining
characters (prefixed with the partial field read so far), except that when
the input ends with the delimiter the final empty field is dropped. -/
lemma tokenizeGo_eq (d : Char) :
    ∀ (cs cur : List Char),
      tokenizeGo d cur cs =
        if cs.getLast? = some d then
          (String.mk (cur.reverse ++ (splitFieldsAux d cs).1) ::
            (splitFieldsAux d cs).2.map String.mk).dropLast
        else
          String.mk (cur.reverse ++ (splitFieldsAux d cs).1) ::
            (splitFieldsAux d cs).2.map String.mk := by
  intro cs
  induction cs with
  | nil =>
    intro cur
    simp [tokenizeGo, splitFieldsAux]
  | cons c cs ih =>
    intro cur
    by_cases hcd : c = d
    · subst hcd
      cases cs with
      | nil =>
        rw [tokenizeGo_cons_delim_nil, splitFieldsAux_delim]
        simp [splitFieldsAux, List.dropLast]
      | cons c2 cs2 =>
        rw [tokenizeGo_cons_delim_cons, ih [], splitFieldsAux_delim]
        simp only [List.getLast?_cons_cons, List.reverse_nil, List.nil_append,
          List.map_cons, List.append_nil]
        by_cases hl : (c2 :: cs2).getLast? = some c
        · rw [if_pos hl, if_pos hl, List.dropLast_cons₂]
        · rw [if_neg hl, if_neg hl]
    · rw [tokenizeGo_cons_ne d c hcd, ih (c :: cur), splitFieldsAux_ne d c hcd]
      cases cs with
      | nil => simp [splitFieldsAux, hcd, List.reverse_cons]
      | cons c2 cs2 =>
        simp only [List.getLast?_cons_cons, List.reverse_cons, List.append_assoc,
          List.singleton_append]

/-- Claim C8, counterexample: a line ending in the delimiter does not
yield a final empty field -- `a,` tokenizes to `["a"]`, not `["a", ""]`. -/
theorem C8_trailing_field_counterexample :
    tokenize ',' "a," = ["a"] ∧ tokenize ',' "a," ≠ ["a", ""] := by decide

/-- Claim C8, amended: the record tokenizer produces the ordered fields
between delimiter occurrences with no trimming and no quoting support, and
leading and interior empty fields are preserved, BUT an empty line yields
no fields and a line ending in the delimiter drops the final empty field
(the last `std::getline` call extracts no characters and fails). -/
theorem C8_tokenizer_drops_trailing_empty (d : Char) (s : String) :
    tokenize d s =
      if s.data = [] then []
      else if s.data.getLast? = some d then (splitFields d s).dropLast
      else splitFields d s := by
  cases hs : s.data with
  | nil => simp [tokenize, hs]
  | cons c cs =>
    simp only [tokenize, splitFields, hs]
    rw [tokenizeGo_eq]
    simp
